import Mathlib

/-!
Shallow embedding of the categorization_service repository
(src/categorization.py and src/main.py) and proofs of the spec claims.

Conventions of the embedding:
* Python strings are Lean `String`; optional / possibly-`None` values are
  `Option`; Python truthiness of a string (`if not text`) is emptiness or
  absence.
* Classification scores are floats in Python; here they are `Rat`, since the
  claims only concern copying scores positionally and their relative order.
* The zero-shot classification model is an opaque oracle
  `String → List String → Except String OracleOutput`; `Except.error`
  models an exception escaping the library call.
* Functions that may raise return `Except String α`; an `Except.error`
  result models an uncaught Python exception leaving the function.
* The categorizer returns, next to its result, the number of oracle
  invocations made during the call, so that "the oracle is not contacted"
  is a statement about the function itself.
-/

namespace CategorizationService

/-- One entry of a categorization result: `{"category": label, "score": score}`
(src/categorization.py lines 80-83). -/
structure CatScore where
  category : String
  score : Rat
deriving DecidableEq, Repr

/-- Output of one classification-oracle call: the `result['labels']` and
`result['scores']` arrays (src/categorization.py line 77). -/
structure OracleOutput where
  labels : List String
  scores : List Rat
deriving DecidableEq, Repr

/-- The classification oracle (the zero-shot `classifier` pipeline of
src/categorization.py line 9), abstracted: given a text and candidate
labels it returns ranked labels with scores, or raises. -/
def Oracle : Type := String → List String → Except String OracleOutput

/-- The built-in default candidate labels of
`categorize_text_with_tags_and_category` (src/categorization.py lines 15-61). -/
def defaultCandidateLabels : List String :=
  [ "Desafios e Tendências Virais",
    "Análises e Críticas de Filmes/Séries",
    "Reações e Comentários",
    "Gameplay e Let's Play",
    "Esports",
    "Skits e Paródias",
    "Humor e Stand-Up",
    "Vlogs Pessoais",
    "Lifestyle e Produtividade",
    "Tutoriais e Como Fazer",
    "Explicações e Análises",
    "Videoclipes e Covers",
    "Desafios Musicais",
    "Gastronomia e Receitas",
    "Tecnologia e Unboxing",
    "Canais de Viagem",
    "DIY (Faça Você Mesmo)",
    "Estudos e Educação",
    "Ciência e Inovação",
    "Notícias e Atualidades",
    "Reações a Vídeos Populares",
    "Reações a Filmes e Séries",
    "Reações a Clipes Musicais",
    "Reações a Jogos e Gameplay",
    "Reações a Vídeos Virais e Memes",
    "Reações a Notícias e Tendências",
    "Reações a Eventos ao Vivo",
    "Reações a Lançamentos de Tecnologias",
    "Reações a Desafios de Comida",
    "Reações a Shows de Comédia",
    "Tecnologia e Inovação",
    "História e Cultura",
    "Entrevistas com Especialistas",
    "Desenvolvimento Pessoal e Produtividade",
    "True Crime",
    "Comédia e Entretenimento",
    "Política e Atualidades",
    "Economia e Negócios",
    "Saúde e Bem-Estar",
    "Religião e Filosofia",
    "Futuro do Trabalho",
    "Diversidade e Inclusão",
    "Viagens e Aventuras",
    "Cinema e Séries",
    "Livros e Literatura" ]

/-- Python truthiness of an optional string: `None` and `""` are falsy. -/
def pyTruthyStr : Option String → Bool
  | none => false
  | some s => s ≠ ""

/-- Lines 63-65 of src/categorization.py:
`if category and category not in candidate_labels: candidate_labels.append(category)`
(`category` is truthy when present and non-empty). -/
def addCategory (candidate_labels : List String) (category : Option String) :
    List String :=
  match category with
  | none => candidate_labels
  | some c =>
      if c ≠ "" ∧ c ∉ candidate_labels then candidate_labels ++ [c]
      else candidate_labels

/-- Lines 67-71 of src/categorization.py: when `tags` is truthy, for each tag
`if tag not in candidate_labels: candidate_labels.append(tag)`. (A falsy
`tags` — `None` or the empty list — skips the loop, which coincides with
folding over the empty list.) -/
def addTags (candidate_labels : List String) (tags : Option (List String)) :
    List String :=
  match tags with
  | none => candidate_labels
  | some ts =>
      ts.foldl (fun acc tag => if tag ∈ acc then acc else acc ++ [tag]) candidate_labels

/-- The candidate-label assembly of `categorize_text_with_tags_and_category`
(src/categorization.py lines 63-71), the spec's `buildLabelSet`: append the
category if truthy and new, then each new tag in iteration order. -/
def buildLabelSet (candidate_labels : List String) (category : Option String)
    (tags : Option (List String)) : List String :=
  addTags (addCategory candidate_labels category) tags

/-- `categorize_text_with_tags_and_category` (src/categorization.py lines
12-85). `text` is `Option String` so that an absent (`None`) text is
representable; `if not text` raises on `None` and on `""`. The label-set
assembly runs before the text check, exactly as in the source. Returns the
result (or the uncaught exception) together with the number of oracle
invocations made during the call. -/
def categorize_text_with_tags_and_category (oracle : Oracle) (text : Option String)
    (tags : Option (List String)) (category : Option String)
    (candidate_labels : Option (List String)) (top_k : Nat) :
    Except String (List CatScore) × Nat :=
  let labels0 := candidate_labels.getD defaultCandidateLabels
  let labels := buildLabelSet labels0 category tags
  match text with
  | none => (Except.error "Input text cannot be empty", 0)
  | some t =>
      if t = "" then (Except.error "Input text cannot be empty", 0)
      else
        match oracle t labels with
        | Except.error e => (Except.error e, 1)
        | Except.ok r =>
            (Except.ok (List.zipWith (fun label score => CatScore.mk label score)
              (r.labels.take top_k) (r.scores.take top_k)), 1)

/-- The value of a caller-supplied `candidate_labels` list as observed by the
caller after `categorize_text_with_tags_and_category` returns (or raises):
the Python code appends to the caller's list object in place
(`candidate_labels.append(...)`, src/categorization.py lines 65 and 71), so
after the call the caller's list holds the assembled label set. -/
def callerLabelsAfterCall (supplied : List String) (category : Option String)
    (tags : Option (List String)) : List String :=
  buildLabelSet supplied category tags

/-! ## The relational store (src/main.py)

Tables from `create_tables_if_not_exist` (src/main.py lines 128-151):
`categorization(id, channel_id, video_id, audio_part, created_at)`,
`category(id, name UNIQUE)`,
`categorization_category(categorization_id, category_id)`.
`SERIAL` ids are modelled by `next...Id` counters; `NOT NULL`/connection
failures are abstracted into a single `dbOk` flag (a failed transaction is
never committed, so it leaves the state unchanged). -/

/-- A row of the `categorization` table. -/
structure CategorizationRow where
  id : Nat
  channel_id : Option String
  video_id : Option String
  audio_part : Option String
deriving DecidableEq, Repr

/-- A row of the `category` table (`name` carries a UNIQUE constraint). -/
structure CategoryRow where
  id : Nat
  name : String
deriving DecidableEq, Repr

/-- A row of the `categorization_category` link table:
`(categorization_id, category_id)`. -/
structure LinkRow where
  categorization_id : Nat
  category_id : Nat
deriving DecidableEq, Repr

/-- The visible state of the three tables. -/
structure DbState where
  categorizationRows : List CategorizationRow
  categoryRows : List CategoryRow
  linkRows : List LinkRow
  nextCategorizationId : Nat
  nextCategoryId : Nat
deriving DecidableEq, Repr

/-- The empty database right after `create_tables_if_not_exist`. -/
def emptyDb : DbState :=
  { categorizationRows := [], categoryRows := [], linkRows := []
    nextCategorizationId := 0, nextCategoryId := 0 }

/-- `INSERT INTO category (name) VALUES (%s) ON CONFLICT (name) DO UPDATE SET
name = EXCLUDED.name RETURNING id` (src/main.py lines 197-205): on a name
conflict the update rewrites the name to itself (a no-op), and the existing
row's id is returned; otherwise a fresh row is inserted. -/
def upsertCategory (s : DbState) (name : String) : DbState × Nat :=
  match s.categoryRows.find? (fun r => r.name = name) with
  | some r => (s, r.id)
  | none =>
      ({ s with
          categoryRows := s.categoryRows ++ [⟨s.nextCategoryId, name⟩]
          nextCategoryId := s.nextCategoryId + 1 },
        s.nextCategoryId)

/-- The loop body of Step 2 of `store_categorization` (src/main.py lines
193-206): `category_name = categorization.get("category"); if category_name:`
upsert it and append the returned id to `category_ids`. -/
def upsertStep (acc : DbState × List Nat) (entry : CatScore) : DbState × List Nat :=
  if entry.category ≠ "" then
    let r := upsertCategory acc.1 entry.category
    (r.1, acc.2 ++ [r.2])
  else acc

/-- The body of `store_categorization`'s try block on the success path
(src/main.py lines 181-222): insert one `categorization` row returning its
id; for each result entry whose `category` name is truthy, upsert the name
and collect the returned id; bulk-insert one link row per collected id;
commit. -/
def storeBody (s : DbState) (categorization_result : List CatScore)
    (channel_id video_id audio_part : Option String) : DbState :=
  let categorization_id := s.nextCategorizationId
  let s1 : DbState :=
    { s with
        categorizationRows :=
          s.categorizationRows ++ [⟨categorization_id, channel_id, video_id, audio_part⟩]
        nextCategorizationId := s.nextCategorizationId + 1 }
  let p := categorization_result.foldl upsertStep (s1, [])
  { p.1 with
      linkRows := p.1.linkRows ++ p.2.map (fun cid => ⟨categorization_id, cid⟩) }

/-- The database transaction attempt inside `store_categorization`'s try
block: `Except.error` models an exception raised before `commit` (connection
failure, constraint violation, ...). A raising attempt never reaches
`commit`, and the `finally` block closes the connection, rolling the
transaction back, so it leaves the tables unchanged. `dbOk` abstracts
whether the transaction succeeds. -/
def storeAttempt (dbOk : Bool) (s : DbState) (categorization_result : List CatScore)
    (channel_id video_id audio_part : Option String) : Except String DbState :=
  if dbOk then Except.ok (storeBody s categorization_result channel_id video_id audio_part)
  else Except.error "Failed to store data"

/-- `store_categorization` (src/main.py lines 170-230): the transaction
attempt wrapped in the blanket `except Exception`, which only logs
(`logging.error(f"Failed to store data: ...")`) and swallows the error.
The `Except` result models what escapes the function to its caller: it is
always `Except.ok`, and carries no success/failure signal. -/
def store_categorization (dbOk : Bool) (s : DbState)
    (categorization_result : List CatScore)
    (channel_id video_id audio_part : Option String) : Except String DbState :=
  match storeAttempt dbOk s categorization_result channel_id video_id audio_part with
  | Except.ok s' => Except.ok s'
  | Except.error _ => Except.ok s

/-- The names in the `category` table, in row order. -/
def categoryNames (s : DbState) : List String :=
  s.categoryRows.map CategoryRow.name

/-- The rows of the `category` table holding a given name. -/
def rowsNamed (s : DbState) (c : String) : List CategoryRow :=
  s.categoryRows.filter (fun r => r.name = c)

/-- The link rows referencing a given `category` id. -/
def linksTo (s : DbState) (cid : Nat) : List LinkRow :=
  s.linkRows.filter (fun l => l.category_id = cid)

/-- Well-formedness of the visible database state: the UNIQUE constraint on
`category.name`; `SERIAL` ids below the sequence counter; and the foreign-key
constraint of `categorization_category.category_id`. -/
def DbWF (s : DbState) : Prop :=
  (categoryNames s).Nodup
  ∧ (∀ r ∈ s.categoryRows, r.id < s.nextCategoryId)
  ∧ (∀ l ∈ s.linkRows, ∃ r ∈ s.categoryRows, l.category_id = r.id)

/-- The arguments of one `store_categorization` call together with whether
its transaction succeeds. -/
structure StoreOp where
  dbOk : Bool
  result : List CatScore
  channel_id : Option String
  video_id : Option String
  audio_part : Option String

/-- A sequence of `store_categorization` calls run against the database. -/
def runStores (s : DbState) (ops : List StoreOp) : DbState :=
  ops.foldl
    (fun acc op =>
      match store_categorization op.dbOk acc op.result op.channel_id
          op.video_id op.audio_part with
      | Except.ok s' => s'
      | Except.error _ => acc)
    s

/-! ## The Queue Bridge (src/main.py, `consume_messages.callback`) -/

/-- An inbound queue message after `json.loads`: each field is read with
`message_data.get(...)` and may be absent (src/main.py lines 83-89). -/
structure InMessage where
  transcription : Option String
  tags : Option (List String)
  category : Option String
  channelId : Option String
  videoId : Option String
  audioPart : Option String
deriving DecidableEq, Repr

/-- The enriched outbound message built at src/main.py lines 101-102. -/
structure OutMessage where
  categorization_result : List CatScore
  channelId : Option String
  videoId : Option String
  audio_part : Option String
  transcription : String
deriving DecidableEq, Repr

/-- Externally visible actions of one callback invocation, in order. -/
inductive Effect where
  /-- `store_categorization` committed a database write. -/
  | dbWrite : Effect
  /-- `send_to_queue` published an outbound message; `persistent` records
  `delivery_mode=2` (src/main.py line 64). -/
  | publish (persistent : Bool) (message : OutMessage) : Effect
  /-- `ch.basic_ack` (src/main.py line 105). -/
  | ack : Effect
  /-- `ch.basic_nack(..., requeue=...)` (src/main.py line 108). -/
  | nack (requeue : Bool) : Effect
deriving DecidableEq, Repr

/-- The environment one callback invocation runs against: the classification
oracle, whether the database transaction succeeds, and whether the broker
publish succeeds (`send_to_queue` re-raises on failure, src/main.py line 71). -/
structure Env where
  oracle : Oracle
  dbOk : Bool
  publishOk : Bool

/-- `consume_messages.callback` (src/main.py lines 80-108). `body` is
`none` when `json.loads`/decoding raises. Steps, as in the source: decode;
read fields; `if not transcription_text: raise ValueError`; categorize
(tags and category from the message, default labels, `top_k=10` by default);
`store_categorization` (which never raises); build the enriched message;
`send_to_queue` (publishes with `delivery_mode=2`, re-raises on failure);
`basic_ack`. Any exception lands in the blanket `except`, which
`basic_nack`s with `requeue=True`. Returns the database state after the
invocation and the ordered list of visible effects. -/
def callback (env : Env) (s : DbState) (body : Option InMessage) :
    DbState × List Effect :=
  match body with
  | none => (s, [Effect.nack true])
  | some m =>
      match m.transcription with
      | none => (s, [Effect.nack true])
      | some t =>
          if t = "" then (s, [Effect.nack true])
          else
            match (categorize_text_with_tags_and_category env.oracle (some t)
                m.tags m.category none 10).1 with
            | Except.error _ => (s, [Effect.nack true])
            | Except.ok categorization_result =>
                match store_categorization env.dbOk s categorization_result
                    m.channelId m.videoId m.audioPart with
                | Except.error _ => (s, [Effect.nack true])
                | Except.ok s' =>
                    let dbEffects : List Effect :=
                      if env.dbOk then [Effect.dbWrite] else []
                    let categorized_message : OutMessage :=
                      { categorization_result := categorization_result
                        channelId := m.channelId, videoId := m.videoId
                        audio_part := m.audioPart, transcription := t }
                    if env.publishOk then
                      (s', dbEffects ++
                        [Effect.publish true categorized_message, Effect.ack])
                    else
                      (s', dbEffects ++ [Effect.nack true])

/-! ## The HTTP façade (src/main.py, `categorize_text_request`) -/

/-- An HTTP response of `POST /categorize`: status 200 with body
`{"category": ...}` on success, or status 500 with body `{"detail": ...}`
from the raised `HTTPException` (src/main.py lines 256-263). -/
structure HttpResponse where
  status : Nat
  bodyCategory : Option (List CatScore)
  bodyDetail : Option String
deriving DecidableEq, Repr

/-- `categorize_text_request` (src/main.py lines 256-263): calls the
categorizer with only the transcription (tags, category, candidate labels
defaulted, `top_k=10`); returns `{"category": result}` on success and
`HTTPException(status_code=500, detail=str(e))` on any exception. Returns
the response together with the number of oracle invocations made. -/
def categorize_text_request (oracle : Oracle) (transcription : String) :
    HttpResponse × Nat :=
  match categorize_text_with_tags_and_category oracle (some transcription)
      none none none 10 with
  | (Except.ok category, n) => (⟨200, some category, none⟩, n)
  | (Except.error e, n) => (⟨500, none, some e⟩, n)

/-- A concrete 25-entry default label set containing "Tecnologia" (used to
instantiate the spec's worked example). -/
def exampleDefaults : List String :=
  defaultCandidateLabels.take 24 ++ ["Tecnologia"]

/-! ## Lemmas about the label-set assembly -/

theorem tagFold_prefix_aux (ts : List String) (acc : List String) :
    acc <+: ts.foldl (fun a t => if t ∈ a then a else a ++ [t]) acc := by
  induction ts generalizing acc with
  | nil => exact List.prefix_rfl
  | cons t ts ih =>
      simp only [List.foldl_cons]
      by_cases h : t ∈ acc
      · rw [if_pos h]; exact ih acc
      · rw [if_neg h]; exact (List.prefix_append acc [t]).trans (ih (acc ++ [t]))

theorem tagFold_nodup_aux (ts : List String) (acc : List String) (h : acc.Nodup) :
    (ts.foldl (fun a t => if t ∈ a then a else a ++ [t]) acc).Nodup := by
  induction ts generalizing acc with
  | nil => exact h
  | cons t ts ih =>
      simp only [List.foldl_cons]
      by_cases ht : t ∈ acc
      · rw [if_pos ht]; exact ih acc h
      · rw [if_neg ht]
        exact ih _ (by simp [List.nodup_append, h, ht])

theorem tagFold_noop_aux (ts : List String) (acc : List String)
    (h : ∀ t ∈ ts, t ∈ acc) :
    ts.foldl (fun a t => if t ∈ a then a else a ++ [t]) acc = acc := by
  induction ts with
  | nil => rfl
  | cons t ts ih =>
      simp only [List.foldl_cons, if_pos (h t (by simp))]
      exact ih (fun t' ht' => h t' (by simp [ht']))

theorem tagFold_modified_aux (ts : List String) (acc : List String)
    (h : ∃ t ∈ ts, t ∉ acc) :
    acc.length < (ts.foldl (fun a t => if t ∈ a then a else a ++ [t]) acc).length := by
  induction ts generalizing acc with
  | nil => simp at h
  | cons t ts ih =>
      simp only [List.foldl_cons]
      by_cases ht : t ∈ acc
      · rw [if_pos ht]
        rcases h with ⟨t', ht', hnot⟩
        rcases List.mem_cons.1 ht' with rfl | ht'
        · exact absurd ht hnot
        · exact ih acc ⟨t', ht', hnot⟩
      · rw [if_neg ht]
        have hlen := (tagFold_prefix_aux ts (acc ++ [t])).length_le
        simp only [List.length_append, List.length_singleton] at hlen
        omega

theorem addCategory_front_aux (labels : List String) (category : Option String) :
    labels <+: addCategory labels category := by
  cases category with
  | none => exact List.prefix_rfl
  | some c =>
      show labels <+: (if c ≠ "" ∧ c ∉ labels then labels ++ [c] else labels)
      by_cases h : c ≠ "" ∧ c ∉ labels
      · rw [if_pos h]; exact List.prefix_append labels [c]
      · rw [if_neg h]

theorem addCategory_nodup (labels : List String) (category : Option String)
    (h : labels.Nodup) : (addCategory labels category).Nodup := by
  cases category with
  | none => exact h
  | some c =>
      show (if c ≠ "" ∧ c ∉ labels then labels ++ [c] else labels).Nodup
      by_cases hc : c ≠ "" ∧ c ∉ labels
      · rw [if_pos hc]; simp [List.nodup_append, h, hc.2]
      · rw [if_neg hc]; exact h

theorem addCategory_noop (labels : List String) (category : Option String)
    (h : ∀ c, category = some c → c = "" ∨ c ∈ labels) :
    addCategory labels category = labels := by
  cases category with
  | none => rfl
  | some c =>
      show (if c ≠ "" ∧ c ∉ labels then labels ++ [c] else labels) = labels
      rcases h c rfl with h1 | h1
      · rw [if_neg (by simp [h1])]
      · rw [if_neg (by simp [h1])]

theorem addTags_front_aux (labels : List String) (tags : Option (List String)) :
    labels <+: addTags labels tags := by
  cases tags with
  | none => exact List.prefix_rfl
  | some ts => exact tagFold_prefix_aux ts labels

theorem addTags_nodup (labels : List String) (tags : Option (List String))
    (h : labels.Nodup) : (addTags labels tags).Nodup := by
  cases tags with
  | none => exact h
  | some ts => exact tagFold_nodup_aux ts labels h

theorem addTags_noop (labels : List String) (tags : Option (List String))
    (h : ∀ ts, tags = some ts → ∀ t ∈ ts, t ∈ labels) :
    addTags labels tags = labels := by
  cases tags with
  | none => rfl
  | some ts => exact tagFold_noop_aux ts labels (h ts rfl)

/-! ## C1 -/

/-- C1: every call to `categorize_text_with_tags_and_category` whose `text`
is empty or absent fails with the `ValueError` "Input text cannot be empty",
and the classification oracle is invoked zero times during that call. -/
theorem categorize_empty_text_fails_without_oracle (oracle : Oracle)
    (text : Option String) (tags : Option (List String)) (category : Option String)
    (candidate_labels : Option (List String)) (top_k : Nat)
    (h : pyTruthyStr text = false) :
    categorize_text_with_tags_and_category oracle text tags category
        candidate_labels top_k
      = (Except.error "Input text cannot be empty", 0) := by
  cases text with
  | none => rfl
  | some t =>
      have ht : t = "" := by simpa [pyTruthyStr] using h
      subst ht
      rfl

/-- Witness for C1 at `text = some ""`. -/
theorem categorize_empty_text_fails_without_oracle_witness :
    pyTruthyStr (some "") = false ∧
    categorize_text_with_tags_and_category
        (fun _ _ => Except.error "unused") (some "") none none none 10
      = (Except.error "Input text cannot be empty", 0) :=
  ⟨rfl, categorize_empty_text_fails_without_oracle _ _ _ _ _ _ rfl⟩

/-! ## C3 -/

/-- C3 fails as stated: a caller-supplied default label sequence that itself
contains duplicates passes through the assembly unchanged, so the assembled
candidate label set can contain duplicate entries. -/
theorem buildLabelSet_duplicates_counterexample :
    buildLabelSet ["A", "A"] none none = ["A", "A"]
    ∧ ¬ (buildLabelSet ["A", "A"] none none).Nodup := by
  constructor
  · rfl
  · decide

/-- C3 (amended): provided the default label sequence is duplicate-free, the
assembled candidate label set contains no duplicate entries; supplying a
category or tag that is already present leaves the set unchanged; the
original default sequence is preserved in order as a prefix; and for a
25-entry default set with "Tecnologia" already present and "IA" absent,
assembling with category "Tecnologia" and tags ["IA", "Tecnologia"] yields
exactly the default set with "IA" appended at the end, of length 26. -/
theorem buildLabelSet_spec (labels : List String) (category : Option String)
    (tags : Option (List String)) :
    (labels.Nodup → (buildLabelSet labels category tags).Nodup)
    ∧ labels <+: buildLabelSet labels category tags
    ∧ ((∀ c, category = some c → c = "" ∨ c ∈ labels) →
       (∀ ts, tags = some ts → ∀ t ∈ ts, t ∈ labels) →
       buildLabelSet labels category tags = labels)
    ∧ (labels.length = 25 → "Tecnologia" ∈ labels → "IA" ∉ labels →
       buildLabelSet labels (some "Tecnologia") (some ["IA", "Tecnologia"])
           = labels ++ ["IA"]
       ∧ (buildLabelSet labels (some "Tecnologia")
           (some ["IA", "Tecnologia"])).length = 26) := by
  refine ⟨?_, ?_, ?_, ?_⟩
  · intro h
    exact addTags_nodup _ tags (addCategory_nodup labels category h)
  · exact (addCategory_front_aux labels category).trans
      (addTags_front_aux (addCategory labels category) tags)
  · intro hcat htags
    unfold buildLabelSet
    rw [addCategory_noop labels category hcat, addTags_noop labels tags htags]
  · intro hlen hT hIA
    have hstep : buildLabelSet labels (some "Tecnologia") (some ["IA", "Tecnologia"])
        = labels ++ ["IA"] := by
      unfold buildLabelSet
      rw [addCategory_noop labels (some "Tecnologia")
        (by intro c hc; cases hc; exact Or.inr hT)]
      unfold addTags
      simp only [List.foldl_cons, List.foldl_nil]
      rw [if_neg hIA, if_pos (List.mem_append_left ["IA"] hT)]
    refine ⟨hstep, ?_⟩
    rw [hstep]
    simp [hlen]

/-- Witness for C3, instantiating the amended claim's worked example with a
concrete duplicate-free 25-entry default set containing "Tecnologia". -/
theorem buildLabelSet_spec_witness :
    buildLabelSet exampleDefaults (some "Tecnologia") (some ["IA", "Tecnologia"])
        = exampleDefaults ++ ["IA"]
    ∧ (buildLabelSet exampleDefaults (some "Tecnologia")
        (some ["IA", "Tecnologia"])).length = 26
    ∧ exampleDefaults.Nodup
    ∧ (buildLabelSet exampleDefaults (some "Tecnologia")
        (some ["IA", "Tecnologia"])).Nodup := by
  have h := buildLabelSet_spec exampleDefaults (some "Tecnologia")
    (some ["IA", "Tecnologia"])
  have hnd : exampleDefaults.Nodup := by decide
  have hex := h.2.2.2 (by decide) (by decide) (by decide)
  exact ⟨hex.1, hex.2, hnd, h.1 hnd⟩

/-! ## C9 -/

/-- C9 fails as stated: the assembly appends to the caller's list object in
place, so a caller-supplied `candidate_labels` of `["A"]` with a new category
"B" is `["A", "B"]` — not the original `["A"]` — after the call. -/
theorem callerLabels_modified_counterexample :
    callerLabelsAfterCall ["A"] (some "B") none = ["A", "B"]
    ∧ callerLabelsAfterCall ["A"] (some "B") none ≠ ["A"] := by
  constructor
  · rfl
  · decide

/-- C9 (amended): the label-set assembly performs no removal and no
reordering of existing entries — the caller-supplied sequence is always a
prefix, in order, of the list the caller observes after the call — but it is
not free of side effects: new entries are appended in place to the
caller-supplied list, which is left unmodified exactly when the category is
absent, empty, or already present in the supplied list, and every tag of the
(possibly absent) tag sequence is already present in the supplied list. -/
theorem callerLabelsAfterCall_spec (supplied : List String)
    (category : Option String) (tags : Option (List String)) :
    supplied <+: callerLabelsAfterCall supplied category tags
    ∧ (callerLabelsAfterCall supplied category tags = supplied ↔
        ((∀ c, category = some c → c = "" ∨ c ∈ supplied)
         ∧ (∀ ts, tags = some ts → ∀ t ∈ ts, t ∈ supplied))) := by
  have hpre1 : supplied <+: addCategory supplied category :=
    addCategory_front_aux supplied category
  have hpre2 : addCategory supplied category <+:
      callerLabelsAfterCall supplied category tags :=
    addTags_front_aux (addCategory supplied category) tags
  refine ⟨hpre1.trans hpre2, ?_, ?_⟩
  · intro heq
    have hlen1 := hpre1.length_le
    have hlen2 := hpre2.length_le
    rw [heq] at hlen2
    have hAC : addCategory supplied category = supplied :=
      (hpre1.eq_of_length (by omega)).symm
    have htags2 : addTags supplied tags = supplied := by
      have hcall : callerLabelsAfterCall supplied category tags
          = addTags supplied tags := by
        unfold callerLabelsAfterCall buildLabelSet
        rw [hAC]
      rw [← hcall, heq]
    constructor
    · intro c hc
      by_contra hcon
      push_neg at hcon
      have hadd : addCategory supplied (some c) = supplied ++ [c] := by
        show (if c ≠ "" ∧ c ∉ supplied then supplied ++ [c] else supplied)
          = supplied ++ [c]
        rw [if_pos hcon]
      rw [hc, hadd] at hAC
      simp at hAC
    · intro ts hts t ht
      by_contra hnot
      have hgrow := tagFold_modified_aux ts supplied ⟨t, ht, hnot⟩
      rw [hts] at htags2
      have hfold : ts.foldl (fun a tg => if tg ∈ a then a else a ++ [tg]) supplied
          = supplied := htags2
      rw [hfold] at hgrow
      exact lt_irrefl _ hgrow
  · rintro ⟨hcat, htags⟩
    unfold callerLabelsAfterCall buildLabelSet
    rw [addCategory_noop supplied category hcat, addTags_noop supplied tags htags]

/-- Witness for C9's amended claim: a supplied list with the category and all
tags already present is left unmodified, and is a prefix of itself. -/
theorem callerLabelsAfterCall_spec_witness :
    ["A"] <+: callerLabelsAfterCall ["A"] (some "A") (some ["A"])
    ∧ callerLabelsAfterCall ["A"] (some "A") (some ["A"]) = ["A"] := by
  have h := callerLabelsAfterCall_spec ["A"] (some "A") (some ["A"])
  exact ⟨h.1, h.2.2 ⟨by simp, by simp⟩⟩

/-! ## Lemmas about the top-k zip of the oracle's arrays -/

theorem map_category_zipWith_aux (a : List String) (b : List Rat) :
    (List.zipWith (fun label score => CatScore.mk label score) a b).map
        CatScore.category
      = a.take b.length := by
  induction a generalizing b with
  | nil => simp
  | cons x xs ih =>
      cases b with
      | nil => simp
      | cons y ys => simp [ih ys]

theorem map_score_zipWith_aux (a : List String) (b : List Rat) :
    (List.zipWith (fun label score => CatScore.mk label score) a b).map
        CatScore.score
      = b.take a.length := by
  induction a generalizing b with
  | nil => simp
  | cons x xs ih =>
      cases b with
      | nil => simp
      | cons y ys => simp [ih ys]

theorem score_mem_of_mem_zipWith_aux (a : List String) (b : List Rat)
    (p : CatScore)
    (hp : p ∈ List.zipWith (fun label score => CatScore.mk label score) a b) :
    p.score ∈ b := by
  induction a generalizing b with
  | nil => simp at hp
  | cons x xs ih =>
      cases b with
      | nil => simp at hp
      | cons y ys =>
          rw [List.zipWith_cons_cons, List.mem_cons] at hp
          rcases hp with rfl | hp
          · exact List.mem_cons_self y ys
          · exact List.mem_cons_of_mem y (ih ys hp)

theorem pairwise_score_zipWith_aux (a : List String) (b : List Rat)
    (hb : b.Pairwise (· ≥ ·)) :
    (List.zipWith (fun label score => CatScore.mk label score) a b).Pairwise
      (fun p q => p.score ≥ q.score) := by
  induction a generalizing b with
  | nil => simp
  | cons x xs ih =>
      cases b with
      | nil => simp
      | cons y ys =>
          rw [List.zipWith_cons_cons]
          rw [List.pairwise_cons] at hb
          refine List.Pairwise.cons ?_ (ih ys hb.2)
          intro p hp
          exact hb.1 p.score (score_mem_of_mem_zipWith_aux xs ys p hp)

/-! ## C2 -/

/-- C2: for non-empty text, when the oracle succeeds and returns one score
per returned label with the scores ranked non-increasing, the categorizer
makes exactly one oracle call and returns exactly
`min top_k (number of labels returned)` category/score pairs, paired
positionally from the oracle's label and score arrays (no padding, no
error), with scores monotonically non-increasing. -/
theorem categorize_result_spec (oracle : Oracle) (t : String) (hne : t ≠ "")
    (tags : Option (List String)) (category : Option String)
    (candidate_labels : Option (List String)) (top_k : Nat) (r : OracleOutput)
    (hor : oracle t
        (buildLabelSet (candidate_labels.getD defaultCandidateLabels) category tags)
      = Except.ok r)
    (hlen : r.scores.length = r.labels.length)
    (hsorted : r.scores.Pairwise (· ≥ ·)) :
    ∃ out,
      categorize_text_with_tags_and_category oracle (some t) tags category
          candidate_labels top_k
        = (Except.ok out, 1)
      ∧ out.length = min top_k r.labels.length
      ∧ out.map CatScore.category = r.labels.take top_k
      ∧ out.map CatScore.score = r.scores.take top_k
      ∧ out.Pairwise (fun p q => p.score ≥ q.score) := by
  refine ⟨List.zipWith (fun label score => CatScore.mk label score)
    (r.labels.take top_k) (r.scores.take top_k), ?_, ?_, ?_, ?_, ?_⟩
  · simp only [categorize_text_with_tags_and_category, if_neg hne, hor]
  · rw [List.length_zipWith, List.length_take, List.length_take, hlen]
    omega
  · rw [map_category_zipWith_aux, List.take_take, List.length_take, hlen,
      List.take_eq_take]
    omega
  · rw [map_score_zipWith_aux, List.take_take, List.length_take,
      List.take_eq_take]
    omega
  · exact pairwise_score_zipWith_aux _ _
      (hsorted.sublist (List.take_sublist top_k r.scores))

/-- Witness for C2: a concrete oracle returning two ranked labels, asked for
`top_k = 1`, yields exactly one pair, positionally paired and sorted. -/
theorem categorize_result_spec_witness :
    ∃ out,
      categorize_text_with_tags_and_category
          (fun _ _ => Except.ok ⟨["A", "B"], [1, 0]⟩) (some "x") none none
          (some ["A", "B"]) 1
        = (Except.ok out, 1)
      ∧ out.length = min 1 (OracleOutput.mk ["A", "B"] [1, 0]).labels.length
      ∧ out.map CatScore.category
          = (OracleOutput.mk ["A", "B"] [1, 0]).labels.take 1
      ∧ out.map CatScore.score
          = (OracleOutput.mk ["A", "B"] [1, 0]).scores.take 1
      ∧ out.Pairwise (fun p q => p.score ≥ q.score) :=
  categorize_result_spec (fun _ _ => Except.ok ⟨["A", "B"], [1, 0]⟩) "x"
    (by decide) none none (some ["A", "B"]) 1 ⟨["A", "B"], [1, 0]⟩ rfl rfl
    (by decide)

/-! ## C5 -/

/-- C5: on an inbound message whose `transcription` field is missing or
empty, the callback leaves the database untouched, performs no publish, and
negatively-acknowledges the message with `requeue=true` as its only visible
action. -/
theorem callback_missing_transcription_nacks (env : Env) (s : DbState)
    (m : InMessage) (h : m.transcription = none ∨ m.transcription = some "") :
    callback env s (some m) = (s, [Effect.nack true]) := by
  rcases h with h | h <;> simp [callback, h]

/-- Witness for C5 at a message with no `transcription` field. -/
theorem callback_missing_transcription_nacks_witness :
    callback ⟨fun _ _ => Except.error "unused", true, true⟩ emptyDb
        (some ⟨none, none, none, none, none, none⟩)
      = (emptyDb, [Effect.nack true]) :=
  callback_missing_transcription_nacks _ _ _ (Or.inl rfl)

/-! ## C6 -/

/-- C6: when a message is processed successfully, the enriched outbound
message is published with persistent delivery mode, and the acknowledgment
happens strictly after the publish, with no ack, nack, or publish before it;
if the publish raises, no acknowledgment occurs and the message is
negatively-acknowledged with requeue instead. -/
theorem callback_publish_before_ack (env : Env) (s : DbState) (m : InMessage)
    (t : String) (ht : m.transcription = some t) (hne : t ≠ "")
    (result : List CatScore)
    (hres : (categorize_text_with_tags_and_category env.oracle (some t) m.tags
        m.category none 10).1 = Except.ok result) :
    (env.publishOk = true →
      ∃ pre s2,
        callback env s (some m)
          = (s2, pre ++ [Effect.publish true
              ⟨result, m.channelId, m.videoId, m.audioPart, t⟩, Effect.ack])
        ∧ Effect.ack ∉ pre ∧ (∀ b, Effect.nack b ∉ pre)
        ∧ (∀ p msg, Effect.publish p msg ∉ pre))
    ∧ (env.publishOk = false →
        Effect.ack ∉ (callback env s (some m)).2
        ∧ Effect.nack true ∈ (callback env s (some m)).2) := by
  constructor
  · intro hpub
    refine ⟨if env.dbOk then [Effect.dbWrite] else [],
      if env.dbOk then storeBody s result m.channelId m.videoId m.audioPart
      else s, ?_, ?_, ?_, ?_⟩
    · cases hdb : env.dbOk <;>
        simp [callback, ht, hne, hres, store_categorization, storeAttempt,
          hdb, hpub]
    · cases env.dbOk <;> simp
    · intro b; cases env.dbOk <;> simp
    · intro p msg; cases env.dbOk <;> simp
  · intro hpub
    cases hdb : env.dbOk <;>
      simp [callback, ht, hne, hres, store_categorization, storeAttempt,
        hdb, hpub]

/-- Witness for C6's success branch at a concrete message and oracle. -/
theorem callback_publish_before_ack_witness :
    ∃ pre s2,
      callback ⟨fun _ _ => Except.ok ⟨["A"], [1]⟩, true, true⟩ emptyDb
          (some ⟨some "x", none, none, none, none, none⟩)
        = (s2, pre ++ [Effect.publish true
            ⟨[⟨"A", 1⟩], none, none, none, "x"⟩, Effect.ack])
      ∧ Effect.ack ∉ pre ∧ (∀ b, Effect.nack b ∉ pre)
      ∧ (∀ p msg, Effect.publish p msg ∉ pre) :=
  (callback_publish_before_ack ⟨fun _ _ => Except.ok ⟨["A"], [1]⟩, true, true⟩
    emptyDb ⟨some "x", none, none, none, none, none⟩ "x" rfl (by decide)
    [⟨"A", 1⟩] rfl).1 rfl

/-! ## C7 -/

/-- C8: `POST /categorize` answers 200 with body `{"category": result}` when
categorization succeeds, answers 500 with body `{"detail": message}` on any
exception — the `InvalidInput` case included, conflated with internal
errors — and for an empty transcription answers 500 with the `ValueError`
message while making no oracle call. -/
theorem categorize_text_request_spec (oracle : Oracle) (transcription : String) :
    (∀ out n, categorize_text_with_tags_and_category oracle (some transcription)
        none none none 10 = (Except.ok out, n) →
      categorize_text_request oracle transcription = (⟨200, some out, none⟩, n))
    ∧ (∀ e n, categorize_text_with_tags_and_category oracle (some transcription)
        none none none 10 = (Except.error e, n) →
      categorize_text_request oracle transcription = (⟨500, none, some e⟩, n))
    ∧ (transcription = "" →
      categorize_text_request oracle transcription
        = (⟨500, none, some "Input text cannot be empty"⟩, 0)) := by
  refine ⟨?_, ?_, ?_⟩
  · intro out n h; simp [categorize_text_request, h]
  · intro e n h; simp [categorize_text_request, h]
  · intro h; subst h; rfl

/-- Witness for C8 at an empty transcription: status 500, the `ValueError`
message as detail, and zero oracle calls. -/
theorem categorize_text_request_spec_witness :
    categorize_text_request (fun _ _ => Except.error "unused") ""
      = (⟨500, none, some "Input text cannot be empty"⟩, 0) :=
  (categorize_text_request_spec (fun _ _ => Except.error "unused") "").2.2 rfl

/-! ## C10 -/

theorem find_none_of_not_mem_names_aux (rows : List CategoryRow) (c : String)
    (h : c ∉ rows.map CategoryRow.name) :
    rows.find? (fun r => r.name = c) = none := by
  rw [List.find?_eq_none]
  intro r hr
  simp only [decide_eq_true_eq]
  intro hname
  exact h (hname ▸ List.mem_map_of_mem CategoryRow.name hr)

theorem filter_names_nil_aux (rows : List CategoryRow) (c : String)
    (h : c ∉ rows.map CategoryRow.name) :
    rows.filter (fun r => r.name = c) = [] := by
  rw [List.filter_eq_nil_iff]
  intro r hr
  simp only [decide_eq_true_eq]
  intro hname
  exact h (hname ▸ List.mem_map_of_mem CategoryRow.name hr)

theorem store_categorization_ok_aux (dbOk : Bool) (s : DbState)
    (res : List CatScore) (ch v a : Option String) :
    store_categorization dbOk s res ch v a
      = Except.ok (if dbOk then storeBody s res ch v a else s) := by
  cases dbOk <;> rfl

theorem upsertFold_invariant_aux (entries : List CatScore)
    (p : DbState × List Nat)
    (hnames : (categoryNames p.1).Nodup)
    (hids : ∀ r ∈ p.1.categoryRows, r.id < p.1.nextCategoryId)
    (hcol : ∀ cid ∈ p.2, ∃ r ∈ p.1.categoryRows, cid = r.id) :
    (categoryNames (entries.foldl upsertStep p).1).Nodup
    ∧ (∀ r ∈ (entries.foldl upsertStep p).1.categoryRows,
        r.id < (entries.foldl upsertStep p).1.nextCategoryId)
    ∧ (∀ cid ∈ (entries.foldl upsertStep p).2,
        ∃ r ∈ (entries.foldl upsertStep p).1.categoryRows, cid = r.id)
    ∧ p.1.categoryRows <+: (entries.foldl upsertStep p).1.categoryRows
    ∧ (entries.foldl upsertStep p).1.linkRows = p.1.linkRows
    ∧ (entries.foldl upsertStep p).1.categorizationRows
        = p.1.categorizationRows
    ∧ (entries.foldl upsertStep p).1.nextCategorizationId
        = p.1.nextCategorizationId := by
  induction entries generalizing p with
  | nil => exact ⟨hnames, hids, hcol, List.prefix_rfl, rfl, rfl, rfl⟩
  | cons e es ih =>
      simp only [List.foldl_cons]
      by_cases hc : e.category = ""
      · have hstep : upsertStep p e = p := by
          simp [upsertStep, hc]
        rw [hstep]
        exact ih p hnames hids hcol
      · cases hfind : p.1.categoryRows.find? (fun r => r.name = e.category) with
        | some r =>
            have hstep : upsertStep p e = (p.1, p.2 ++ [r.id]) := by
              simp [upsertStep, hc, upsertCategory, hfind]
            rw [hstep]
            have hr : r ∈ p.1.categoryRows := List.mem_of_find?_eq_some hfind
            exact ih (p.1, p.2 ++ [r.id]) hnames hids
              (by
                intro cid hcid
                rcases List.mem_append.1 hcid with hcid | hcid
                · exact hcol cid hcid
                · exact ⟨r, hr, by simpa using hcid⟩)
        | none =>
            have hstep : upsertStep p e =
                ({ p.1 with
                    categoryRows := p.1.categoryRows
                      ++ [CategoryRow.mk p.1.nextCategoryId e.category]
                    nextCategoryId := p.1.nextCategoryId + 1 },
                  p.2 ++ [p.1.nextCategoryId]) := by
              simp [upsertStep, hc, upsertCategory, hfind]
            rw [hstep]
            have hcnot : e.category ∉ categoryNames p.1 := by
              intro hmem
              rcases List.mem_map.1 hmem with ⟨r, hr, hname⟩
              rw [List.find?_eq_none] at hfind
              have := hfind r hr
              simp [hname] at this
            obtain ⟨i1, i2, i3, i4, i5, i6, i7⟩ := ih
              ({ p.1 with
                  categoryRows := p.1.categoryRows
                    ++ [CategoryRow.mk p.1.nextCategoryId e.category]
                  nextCategoryId := p.1.nextCategoryId + 1 },
                p.2 ++ [p.1.nextCategoryId])
              (by
                show (List.map CategoryRow.name (p.1.categoryRows
                  ++ [CategoryRow.mk p.1.nextCategoryId e.category])).Nodup
                rw [List.map_append, List.nodup_append]
                refine ⟨hnames, List.nodup_singleton _, ?_⟩
                intro a ha hb
                simp only [List.map_cons, List.map_nil,
                  List.mem_singleton] at hb
                subst hb
                exact hcnot ha)
              (by
                intro r hr
                rcases List.mem_append.1 hr with hr | hr
                · exact Nat.lt_succ_of_lt (hids r hr)
                · simp at hr
                  simp [hr])
              (by
                intro cid hcid
                rcases List.mem_append.1 hcid with hcid | hcid
                · obtain ⟨r, hr, hre⟩ := hcol cid hcid
                  exact ⟨r, List.mem_append_left _ hr, hre⟩
                · refine ⟨CategoryRow.mk p.1.nextCategoryId e.category,
                    List.mem_append_right _ (by simp), by simpa using hcid⟩)
            exact ⟨i1, i2, i3, (List.prefix_append _ _).trans i4, i5, i6, i7⟩

theorem storeBody_wf (s : DbState) (res : List CatScore)
    (ch v a : Option String) (hwf : DbWF s) : DbWF (storeBody s res ch v a) := by
  obtain ⟨hnames, hids, hfk⟩ := hwf
  obtain ⟨i1, i2, i3, i4, i5, i6, i7⟩ :=
    upsertFold_invariant_aux res
      ({ s with
          categorizationRows := s.categorizationRows
            ++ [⟨s.nextCategorizationId, ch, v, a⟩]
          nextCategorizationId := s.nextCategorizationId + 1 }, [])
      hnames hids (by simp)
  refine ⟨i1, i2, ?_⟩
  intro l hl
  simp only [storeBody] at hl ⊢
  rcases List.mem_append.1 hl with hl | hl
  · rw [i5] at hl
    obtain ⟨r, hr, hre⟩ := hfk l hl
    exact ⟨r, i4.sublist.mem hr, hre⟩
  · rcases List.mem_map.1 hl with ⟨cid, hcid, hle⟩
    obtain ⟨r, hr, hre⟩ := i3 cid hcid
    exact ⟨r, hr, by rw [← hle]; exact hre⟩

theorem runStores_wf (ops : List StoreOp) (s : DbState) (hwf : DbWF s) :
    DbWF (runStores s ops) := by
  induction ops generalizing s with
  | nil => exact hwf
  | cons op ops ih =>
      have hstep : runStores s (op :: ops)
          = runStores
              (if op.dbOk then
                storeBody s op.result op.channel_id op.video_id op.audio_part
               else s) ops := by
        simp only [runStores, List.foldl_cons, store_categorization_ok_aux]
      rw [hstep]
      by_cases hdb : op.dbOk = true
      · rw [if_pos hdb]
        exact ih _ (storeBody_wf _ _ _ _ _ hwf)
      · rw [if_neg hdb]
        exact ih s hwf

/-! ## C4 -/

/-- C4: across every sequence of store operations the `category` table keeps
at most one row per distinct name (its name column stays duplicate-free);
and storing the same fresh category name in two different categorization
events yields exactly one `category` row for that name, exactly two link
rows referencing it (one per event), and two `categorization` rows. -/
theorem store_categorization_dedup (s : DbState) (hwf : DbWF s)
    (ops : List StoreOp) (c : String) (hc : c ≠ "")
    (hnew : c ∉ categoryNames s) (sc1 sc2 : Rat)
    (ch1 v1 a1 ch2 v2 a2 : Option String) :
    (categoryNames (runStores s ops)).Nodup
    ∧ (∀ s1 s2,
        store_categorization true s [⟨c, sc1⟩] ch1 v1 a1 = Except.ok s1 →
        store_categorization true s1 [⟨c, sc2⟩] ch2 v2 a2 = Except.ok s2 →
        ∃ cid, rowsNamed s2 c = [⟨cid, c⟩]
          ∧ (linksTo s2 cid).length = 2
          ∧ s2.categorizationRows.length = s.categorizationRows.length + 2) := by
  constructor
  · exact (runStores_wf ops s hwf).1
  · intro s1 s2 h1 h2
    have hfind : s.categoryRows.find? (fun r => r.name = c) = none :=
      find_none_of_not_mem_names_aux _ _ hnew
    have hs1 : s1 = storeBody s [⟨c, sc1⟩] ch1 v1 a1 := by
      rw [store_categorization_ok_aux] at h1
      simpa using h1.symm
    have hb1 : storeBody s [⟨c, sc1⟩] ch1 v1 a1 =
        { categorizationRows := s.categorizationRows
            ++ [⟨s.nextCategorizationId, ch1, v1, a1⟩]
          categoryRows := s.categoryRows ++ [⟨s.nextCategoryId, c⟩]
          linkRows := s.linkRows
            ++ [⟨s.nextCategorizationId, s.nextCategoryId⟩]
          nextCategorizationId := s.nextCategorizationId + 1
          nextCategoryId := s.nextCategoryId + 1 } := by
      simp [storeBody, upsertStep, upsertCategory, hfind, hc]
    have hs2 : s2 = storeBody s1 [⟨c, sc2⟩] ch2 v2 a2 := by
      rw [store_categorization_ok_aux] at h2
      simpa using h2.symm
    have hb2 : s2 =
        { categorizationRows := s.categorizationRows
            ++ [⟨s.nextCategorizationId, ch1, v1, a1⟩,
                ⟨s.nextCategorizationId + 1, ch2, v2, a2⟩]
          categoryRows := s.categoryRows ++ [⟨s.nextCategoryId, c⟩]
          linkRows := s.linkRows
            ++ [⟨s.nextCategorizationId, s.nextCategoryId⟩,
                ⟨s.nextCategorizationId + 1, s.nextCategoryId⟩]
          nextCategorizationId := s.nextCategorizationId + 2
          nextCategoryId := s.nextCategoryId + 1 } := by
      rw [hs2, hs1, hb1]
      simp [storeBody, upsertStep, upsertCategory, hfind, hc]
    refine ⟨s.nextCategoryId, ?_, ?_, ?_⟩
    · rw [hb2]
      simp only [rowsNamed, List.filter_append,
        filter_names_nil_aux s.categoryRows c hnew]
      simp
    · have hold : s.linkRows.filter
          (fun l => l.category_id = s.nextCategoryId) = [] := by
        rw [List.filter_eq_nil_iff]
        intro l hl
        obtain ⟨r, hr, heq⟩ := hwf.2.2 l hl
        have hlt := hwf.2.1 r hr
        simp only [decide_eq_true_eq, heq]
        omega
      rw [hb2]
      simp only [linksTo, List.filter_append, hold]
      simp
    · rw [hb2]
      simp

/-- Witness for C4: on the empty database, storing the result entry
`{"News", 1}` in two separate categorization events leaves exactly one
`category` row named "News", two link rows referencing it, and two
`categorization` rows. -/
theorem store_categorization_dedup_witness :
    ∃ cid,
      rowsNamed (storeBody (storeBody emptyDb [⟨"News", 1⟩] none none none)
          [⟨"News", 1⟩] none none none) "News" = [⟨cid, "News"⟩]
      ∧ (linksTo (storeBody (storeBody emptyDb [⟨"News", 1⟩] none none none)
          [⟨"News", 1⟩] none none none) cid).length = 2
      ∧ (storeBody (storeBody emptyDb [⟨"News", 1⟩] none none none)
          [⟨"News", 1⟩] none none none).categorizationRows.length
        = emptyDb.categorizationRows.length + 2 :=
  (store_categorization_dedup emptyDb
      ⟨List.nodup_nil, by simp [emptyDb], by simp [emptyDb]⟩ [] "News"
      (by decide) (by simp [categoryNames, emptyDb]) 1 1
      none none none none none none).2
    (storeBody emptyDb [⟨"News", 1⟩] none none none)
    (storeBody (storeBody emptyDb [⟨"News", 1⟩] none none none)
      [⟨"News", 1⟩] none none none)
    (store_categorization_ok_aux true emptyDb [⟨"News", 1⟩] none none none)
    (store_categorization_ok_aux true
      (storeBody emptyDb [⟨"News", 1⟩] none none none) [⟨"News", 1⟩]
      none none none)

end CategorizationService
